import Mathlib

/-!
# Galaxy simulation: shallow embedding of `src/gravity.cu`

The repository is a brute-force 2D N-body simulation.  Its computational core
is the CUDA kernel `updateStars` (one work unit per particle index, each unit
reading the whole particle array and writing only its own slot) together with
the initial-condition generator in `main` (a dominant central mass at index 0
and orbiters on random radii/angles with circular-orbit tangential velocity).

Embedding choices:
* `float` arithmetic is modelled by exact rationals `ℚ`; the library square
  root (`sqrtf` / `sqrt` in the source) is an explicit function parameter
  `sqrtf : ℚ → ℚ`, and likewise `sinf` / `cosf` for the generator.  Concrete
  instantiations use finite tables holding the real square root's values at
  the arguments the scenario actually consumes, exact wherever those
  arguments are perfect rational squares.
* The particle buffer is a `List Star`; one kernel launch (a "tick") becomes
  `updateStars`, which computes every slot from the tick-start snapshot.
  `updateStarsInPlace` is the same per-particle body run sequentially on a
  single shared buffer (one legal schedule of the unsynchronized kernel), and
  `runSchedule` scatters independently computed slots in an arbitrary order.
* C++ integer division appears only in `900 / 2`; it is exact, see
  `brightInc`.
-/

namespace Gravity

/-- Constant `G = 6.67408e-11` (line 10). -/
def GQ : ℚ := 667408 / 10 ^ 16

/-- Constant `CENTRAL_MASS = 26.44e12` (line 11). -/
def centralMass : ℚ := 2644 * 10 ^ 10

/-- Constant `dt = 0.31f` (line 9). -/
def dtQ : ℚ := 31 / 100

/-- Constant `MAX_FORCE = 1e-5f` (line 32). -/
def maxForce : ℚ := 1 / 100000

/-- Constant `MIN_BRIGHTNESS = 0.1f` (line 33). -/
def minBrightness : ℚ := 1 / 10

/-- The softening constant `1e-5f` added both after the raw square root
(line 39) and to the squared distance (line 41). -/
def softEps : ℚ := 1 / 100000

/-- The brightness increment `MAX_FORCE / ((SCREEN_WIDTH / 2) * (SCREEN_HEIGHT / 2))`
(line 43); the `900 / 2` there is C++ integer division, exact here:
`450 * 450 = 202500`. -/
def brightInc : ℚ := maxForce / (450 * 450)

/-- The `struct Star` record (lines 13-18): position, mass, velocity, and the two visual
attributes. -/
structure Star where
  x : ℚ
  y : ℚ
  mass : ℚ
  vx : ℚ
  vy : ℚ
  brightness : ℚ
  opacity : ℚ
deriving DecidableEq, Repr, Inhabited

/-- Function `calculateEscapeVelocity` (lines 26-28): it returns
`sqrtf(2 * G * star->mass / distance)` for the partner star's mass. -/
def calculateEscapeVelocity (sqrtf : ℚ → ℚ) (mass distance : ℚ) : ℚ :=
  sqrtf (2 * GQ * mass / distance)

/-- One iteration of the inner `j` loop of `updateStars` (lines 37-48) for a
partner `sj ≠ si`: returns `si` with its brightness, `vx`, `vy` updated.
`si`'s position and mass are read but never written inside the loop, so
threading the accumulated star through is faithful.  The source uses `sqrtf`
on line 39 and `sqrt` on lines 45-46; both are the parameter `sqrtf` here. -/
def pairStep (sqrtf : ℚ → ℚ) (dtv : ℚ) (sj si : Star) : Star :=
  let dx := sj.x - si.x
  let dy := sj.y - si.y
  let dist := sqrtf (dx * dx + dy * dy) + softEps
  let _escapeVelocity := calculateEscapeVelocity sqrtf sj.mass dist
  let distanceSquared := dx * dx + dy * dy + softEps
  let force := GQ * sj.mass * si.mass / distanceSquared
  let b := min (max (si.brightness + brightInc) minBrightness) 1
  let ax := force * (dx / sqrtf distanceSquared) / si.mass
  let ay := force * (dy / sqrtf distanceSquared) / si.mass
  { si with brightness := b, vx := si.vx + ax * dtv, vy := si.vy + ay * dtv }

/-- Variant of `pairStep` with the dead escape-velocity computation (line 40)
removed. -/
def pairStepNoEscape (sqrtf : ℚ → ℚ) (dtv : ℚ) (sj si : Star) : Star :=
  let dx := sj.x - si.x
  let dy := sj.y - si.y
  let distanceSquared := dx * dx + dy * dy + softEps
  let force := GQ * sj.mass * si.mass / distanceSquared
  let b := min (max (si.brightness + brightInc) minBrightness) 1
  let ax := force * (dx / sqrtf distanceSquared) / si.mass
  let ay := force * (dy / sqrtf distanceSquared) / si.mass
  { si with brightness := b, vx := si.vx + ax * dtv, vy := si.vy + ay * dtv }

/-- The inner `j` loop of the kernel (lines 35-50), run over the index list
`js` with self-index `i` skipped (`if (i != j)`), partner `j` read from the
buffer `stars` (`stars[j]`), and accumulator `a` for particle `i`'s slot. -/
def innerFold (sqrtf : ℚ → ℚ) (dtv : ℚ) (stars : List Star) (i : ℕ)
    (js : List ℕ) (a : Star) : Star :=
  js.foldl
    (fun acc j => if j = i then acc else pairStep sqrtf dtv (stars.getD j default) acc)
    a

/-- The body of one work unit of the kernel `updateStars` (lines 34-53) for
particle index `i`, reading the whole buffer `stars`: the `j` loop over all
partners followed by the half-step position advance
`x += vx * dt / 2`, `y += vy * dt / 2` (lines 51-52). -/
def tickStar (sqrtf : ℚ → ℚ) (dtv : ℚ) (stars : List Star) (i : ℕ) : Star :=
  let s := innerFold sqrtf dtv stars i (List.range stars.length)
    (stars.getD i default)
  { s with x := s.x + s.vx * dtv / 2, y := s.y + s.vy * dtv / 2 }

/-- Variant of `tickStar` built from `pairStepNoEscape`. -/
def tickStarNoEscape (sqrtf : ℚ → ℚ) (dtv : ℚ) (stars : List Star) (i : ℕ) :
    Star :=
  let s := (List.range stars.length).foldl
    (fun acc j => if j = i then acc
      else pairStepNoEscape sqrtf dtv (stars.getD j default) acc)
    (stars.getD i default)
  { s with x := s.x + s.vx * dtv / 2, y := s.y + s.vy * dtv / 2 }

/-- One kernel launch (`updateStars<<<...>>>`, line 134) under the snapshot
semantics the spec mandates: every slot `i` is computed by `tickStar` from the
tick-start buffer. -/
def updateStars (sqrtf : ℚ → ℚ) (dtv : ℚ) (stars : List Star) : List Star :=
  (List.range stars.length).map (tickStar sqrtf dtv stars)

/-- Variant of `updateStars` with the dead escape-velocity computation
removed. -/
def updateStarsNoEscape (sqrtf : ℚ → ℚ) (dtv : ℚ) (stars : List Star) :
    List Star :=
  (List.range stars.length).map (tickStarNoEscape sqrtf dtv stars)

/-- The same per-particle bodies executed sequentially, in index order, on one
shared buffer: each unit reads the buffer as left by the previous units.  This
is one legal schedule of the source kernel, which runs all units on a single
shared array with no intra-tick synchronization. -/
def updateStarsInPlace (sqrtf : ℚ → ℚ) (dtv : ℚ) (stars : List Star) :
    List Star :=
  (List.range stars.length).foldl
    (fun st i => st.set i (tickStar sqrtf dtv st i)) stars

/-- Snapshot evaluation under an arbitrary write order: every unit reads the
tick-start buffer `stars`, and the results are written back, slot by slot, in
the order given by `sched`. -/
def runSchedule (sqrtf : ℚ → ℚ) (dtv : ℚ) (stars : List Star)
    (sched : List ℕ) : List Star :=
  sched.foldl (fun out i => out.set i (tickStar sqrtf dtv stars i)) stars

/-- In-place evaluation under an arbitrary schedule: the per-particle units
run one after another in the order given by `sched`, each reading the live
shared buffer as the previous units left it and writing its own slot.  Every
such order is a legal execution of the source kernel, which launches all
units against a single shared array with no intra-tick synchronization;
`updateStarsInPlace` is the index-order instance. -/
def runInPlaceSchedule (sqrtf : ℚ → ℚ) (dtv : ℚ) (stars : List Star)
    (sched : List ℕ) : List Star :=
  sched.foldl (fun st i => st.set i (tickStar sqrtf dtv st i)) stars

/-- The random draws consumed for one orbiter in the `main` loop
(lines 73-84).  `binit` models the star's brightness field, which the source
never initializes (arbitrary memory contents). -/
structure Draw where
  radius : ℚ
  angle : ℚ
  opacityDraw : ℚ
  massDraw : ℚ
  binit : ℚ
deriving DecidableEq, Repr, Inhabited

/-- The intermediate `float velocity = sqrt(G * CENTRAL_MASS / radius)`
(line 80). -/
def circularVelocity (sqrtf : ℚ → ℚ) (radius : ℚ) : ℚ :=
  sqrtf (GQ * centralMass / radius)

/-- The central star written at index 0 (lines 66-70): screen center
`(900/2, 900/2)`, zero velocity, `CENTRAL_MASS`.  Its brightness and opacity
are never initialized by the source, hence the parameters. -/
def mkCentralStar (b0 o0 : ℚ) : Star :=
  { x := 450, y := 450, mass := centralMass, vx := 0, vy := 0,
    brightness := b0, opacity := o0 }

/-- One orbiter as written by the loop body (lines 73-84), with
`offsetX = offsetY = 0` as at construction time:
position on the sampled radius/angle around the screen center, tangential
velocity `(-velocity * sinf(angle), velocity * cosf(angle))`, mass
`1 + massDraw`. -/
def mkOrbiter (sqrtf sinf cosf : ℚ → ℚ) (d : Draw) : Star :=
  { x := 450 + d.radius * cosf d.angle
    y := 450 + d.radius * sinf d.angle
    mass := 1 + d.massDraw
    vx := -(circularVelocity sqrtf d.radius) * sinf d.angle
    vy := circularVelocity sqrtf d.radius * cosf d.angle
    brightness := d.binit
    opacity := d.opacityDraw }

/-- The whole initial store built by `main` (lines 66-84): the central star at
index 0 followed by one orbiter per draw. -/
def initStore (sqrtf sinf cosf : ℚ → ℚ) (b0 o0 : ℚ) (draws : List Draw) :
    List Star :=
  mkCentralStar b0 o0 :: draws.map (mkOrbiter sqrtf sinf cosf)

/-- The x-acceleration contribution of partner `sj` onto a particle sitting at
`(xi, yi)` with mass `mi`, exactly as lines 41-45 compute it:
`force * (dx / sqrt(distanceSquared)) / mass`. -/
def axPair (sqrtf : ℚ → ℚ) (xi yi mi : ℚ) (sj : Star) : ℚ :=
  let dx := sj.x - xi
  let dy := sj.y - yi
  let distanceSquared := dx * dx + dy * dy + softEps
  GQ * sj.mass * mi / distanceSquared * (dx / sqrtf distanceSquared) / mi

/-- The y-acceleration contribution, as line 46 computes it. -/
def ayPair (sqrtf : ℚ → ℚ) (xi yi mi : ℚ) (sj : Star) : ℚ :=
  let dx := sj.x - xi
  let dy := sj.y - yi
  let distanceSquared := dx * dx + dy * dy + softEps
  GQ * sj.mass * mi / distanceSquared * (dy / sqrtf distanceSquared) / mi

/-- Modelled from the spec: the per-pair x-velocity update as the spec
words it, with the claimed normalizing distance
`d' = sqrt(d_raw^2) + eps'` applied after the square root (the spec's
"independently-epsilon'd distance", here with the source's epsilon value):
`vi += (F / mi) * (dx / d') * dt` where `F = G * mj * mi / d^2` and
`d^2 = dx^2 + dy^2 + eps`. -/
def specContribVx (sqrtf : ℚ → ℚ) (dtv : ℚ) (sj si : Star) : ℚ :=
  let dx := sj.x - si.x
  let dy := sj.y - si.y
  let dSq := dx * dx + dy * dy + softEps
  let dPrime := sqrtf (dx * dx + dy * dy) + softEps
  si.vx + GQ * sj.mass * si.mass / dSq / si.mass * (dx / dPrime) * dtv

/-! ## Lemmas about one iteration of the inner loop -/

theorem pairStep_x (sqrtf : ℚ → ℚ) (dtv : ℚ) (sj si : Star) :
    (pairStep sqrtf dtv sj si).x = si.x := rfl

theorem pairStep_y (sqrtf : ℚ → ℚ) (dtv : ℚ) (sj si : Star) :
    (pairStep sqrtf dtv sj si).y = si.y := rfl

theorem pairStep_mass (sqrtf : ℚ → ℚ) (dtv : ℚ) (sj si : Star) :
    (pairStep sqrtf dtv sj si).mass = si.mass := rfl

theorem pairStep_opacity (sqrtf : ℚ → ℚ) (dtv : ℚ) (sj si : Star) :
    (pairStep sqrtf dtv sj si).opacity = si.opacity := rfl

theorem pairStep_vx (sqrtf : ℚ → ℚ) (dtv : ℚ) (sj si : Star) :
    (pairStep sqrtf dtv sj si).vx =
      si.vx + axPair sqrtf si.x si.y si.mass sj * dtv := rfl

theorem pairStep_vy (sqrtf : ℚ → ℚ) (dtv : ℚ) (sj si : Star) :
    (pairStep sqrtf dtv sj si).vy =
      si.vy + ayPair sqrtf si.x si.y si.mass sj * dtv := rfl

theorem pairStep_brightness (sqrtf : ℚ → ℚ) (dtv : ℚ) (sj si : Star) :
    (pairStep sqrtf dtv sj si).brightness =
      min (max (si.brightness + brightInc) minBrightness) 1 := rfl

/-! ## Lemmas about the inner loop -/

theorem innerFold_nil (sqrtf : ℚ → ℚ) (dtv : ℚ) (stars : List Star) (i : ℕ)
    (a : Star) : innerFold sqrtf dtv stars i [] a = a := rfl

theorem innerFold_cons (sqrtf : ℚ → ℚ) (dtv : ℚ) (stars : List Star) (i j : ℕ)
    (js : List ℕ) (a : Star) :
    innerFold sqrtf dtv stars i (j :: js) a =
      innerFold sqrtf dtv stars i js
        (if j = i then a else pairStep sqrtf dtv (stars.getD j default) a) := rfl

theorem innerFold_x (sqrtf : ℚ → ℚ) (dtv : ℚ) (stars : List Star) (i : ℕ)
    (js : List ℕ) (a : Star) :
    (innerFold sqrtf dtv stars i js a).x = a.x := by
  induction js generalizing a with
  | nil => rfl
  | cons j js ih =>
    rw [innerFold_cons]
    by_cases h : j = i
    · simp [h, ih]
    · simp [h, ih, pairStep_x]

theorem innerFold_y (sqrtf : ℚ → ℚ) (dtv : ℚ) (stars : List Star) (i : ℕ)
    (js : List ℕ) (a : Star) :
    (innerFold sqrtf dtv stars i js a).y = a.y := by
  induction js generalizing a with
  | nil => rfl
  | cons j js ih =>
    rw [innerFold_cons]
    by_cases h : j = i
    · simp [h, ih]
    · simp [h, ih, pairStep_y]

theorem innerFold_mass (sqrtf : ℚ → ℚ) (dtv : ℚ) (stars : List Star) (i : ℕ)
    (js : List ℕ) (a : Star) :
    (innerFold sqrtf dtv stars i js a).mass = a.mass := by
  induction js generalizing a with
  | nil => rfl
  | cons j js ih =>
    rw [innerFold_cons]
    by_cases h : j = i
    · simp [h, ih]
    · simp [h, ih, pairStep_mass]

theorem innerFold_opacity (sqrtf : ℚ → ℚ) (dtv : ℚ) (stars : List Star) (i : ℕ)
    (js : List ℕ) (a : Star) :
    (innerFold sqrtf dtv stars i js a).opacity = a.opacity := by
  induction js generalizing a with
  | nil => rfl
  | cons j js ih =>
    rw [innerFold_cons]
    by_cases h : j = i
    · simp [h, ih]
    · simp [h, ih, pairStep_opacity]

/-- The inner loop accumulates the x-velocity additively: its final `vx` is
the initial `vx` plus the sum of all per-partner contributions, each computed
from the fixed position and mass carried by the accumulator. -/
theorem innerFold_vx (sqrtf : ℚ → ℚ) (dtv : ℚ) (stars : List Star) (i : ℕ)
    (js : List ℕ) (a : Star) :
    (innerFold sqrtf dtv stars i js a).vx =
      a.vx + ((js.filter (fun j => j ≠ i)).map
        (fun j => axPair sqrtf a.x a.y a.mass (stars.getD j default))).sum * dtv := by
  induction js generalizing a with
  | nil => simp [innerFold_nil]
  | cons j js ih =>
    rw [innerFold_cons]
    by_cases h : j = i
    · simp [h, ih]
    · rw [if_neg h, ih]
      rw [pairStep_vx, pairStep_x, pairStep_y, pairStep_mass]
      simp only [List.filter_cons, h, decide_not, decide_eq_true_eq, if_neg,
        Bool.not_eq_true, List.map_cons, List.sum_cons]
      simp [h]
      ring

theorem innerFold_vy (sqrtf : ℚ → ℚ) (dtv : ℚ) (stars : List Star) (i : ℕ)
    (js : List ℕ) (a : Star) :
    (innerFold sqrtf dtv stars i js a).vy =
      a.vy + ((js.filter (fun j => j ≠ i)).map
        (fun j => ayPair sqrtf a.x a.y a.mass (stars.getD j default))).sum * dtv := by
  induction js generalizing a with
  | nil => simp [innerFold_nil]
  | cons j js ih =>
    rw [innerFold_cons]
    by_cases h : j = i
    · simp [h, ih]
    · rw [if_neg h, ih]
      rw [pairStep_vy, pairStep_x, pairStep_y, pairStep_mass]
      simp only [List.filter_cons, h, decide_not, decide_eq_true_eq, if_neg,
        Bool.not_eq_true, List.map_cons, List.sum_cons]
      simp [h]
      ring

/-- One pair iteration leaves the brightness inside `[0.1, 1]`, whatever it
was before. -/
theorem pairStep_brightness_mem (sqrtf : ℚ → ℚ) (dtv : ℚ) (sj si : Star) :
    minBrightness ≤ (pairStep sqrtf dtv sj si).brightness ∧
      (pairStep sqrtf dtv sj si).brightness ≤ 1 := by
  rw [pairStep_brightness]
  refine ⟨le_min (le_max_right _ _) ?_, min_le_right _ _⟩
  norm_num [minBrightness]

theorem innerFold_brightness_mem (sqrtf : ℚ → ℚ) (dtv : ℚ) (stars : List Star)
    (i : ℕ) (js : List ℕ) (a : Star)
    (h : minBrightness ≤ a.brightness ∧ a.brightness ≤ 1) :
    minBrightness ≤ (innerFold sqrtf dtv stars i js a).brightness ∧
      (innerFold sqrtf dtv stars i js a).brightness ≤ 1 := by
  induction js generalizing a with
  | nil => exact h
  | cons j js ih =>
    rw [innerFold_cons]
    by_cases hj : j = i
    · simpa [hj] using ih a h
    · simpa [hj] using ih _ (pairStep_brightness_mem sqrtf dtv _ a)

/-- As soon as the inner loop visits one partner index different from `i`,
the resulting brightness is clamped into `[0.1, 1]` regardless of the
incoming value. -/
theorem innerFold_brightness_mem_of_partner (sqrtf : ℚ → ℚ) (dtv : ℚ)
    (stars : List Star) (i : ℕ) (js : List ℕ) (a : Star)
    (h : ∃ j ∈ js, j ≠ i) :
    minBrightness ≤ (innerFold sqrtf dtv stars i js a).brightness ∧
      (innerFold sqrtf dtv stars i js a).brightness ≤ 1 := by
  induction js generalizing a with
  | nil => simp at h
  | cons j js ih =>
    rw [innerFold_cons]
    by_cases hj : j = i
    · rw [if_pos hj]
      apply ih
      obtain ⟨k, hk, hki⟩ := h
      rcases List.mem_cons.mp hk with hkj | hkjs
      · exact absurd (hkj.trans hj) hki
      · exact ⟨k, hkjs, hki⟩
    · rw [if_neg hj]
      exact innerFold_brightness_mem sqrtf dtv stars i js _
        (pairStep_brightness_mem sqrtf dtv _ a)

/-! ## Lemmas about one whole tick -/

theorem updateStars_length (sqrtf : ℚ → ℚ) (dtv : ℚ) (stars : List Star) :
    (updateStars sqrtf dtv stars).length = stars.length := by
  simp [updateStars]

theorem updateStars_getD (sqrtf : ℚ → ℚ) (dtv : ℚ) (stars : List Star) (i : ℕ)
    (h : i < stars.length) :
    (updateStars sqrtf dtv stars).getD i default = tickStar sqrtf dtv stars i := by
  simp [updateStars, List.getD_eq_getElem?_getD, List.getElem?_map,
    List.getElem?_range h]

theorem tickStar_vx (sqrtf : ℚ → ℚ) (dtv : ℚ) (stars : List Star) (i : ℕ) :
    (tickStar sqrtf dtv stars i).vx =
      (stars.getD i default).vx +
        (((List.range stars.length).filter (fun j => j ≠ i)).map
          (fun j => axPair sqrtf (stars.getD i default).x (stars.getD i default).y
            (stars.getD i default).mass (stars.getD j default))).sum * dtv := by
  simpa [tickStar] using innerFold_vx sqrtf dtv stars i (List.range stars.length)
    (stars.getD i default)

theorem tickStar_vy (sqrtf : ℚ → ℚ) (dtv : ℚ) (stars : List Star) (i : ℕ) :
    (tickStar sqrtf dtv stars i).vy =
      (stars.getD i default).vy +
        (((List.range stars.length).filter (fun j => j ≠ i)).map
          (fun j => ayPair sqrtf (stars.getD i default).x (stars.getD i default).y
            (stars.getD i default).mass (stars.getD j default))).sum * dtv := by
  simpa [tickStar] using innerFold_vy sqrtf dtv stars i (List.range stars.length)
    (stars.getD i default)

theorem tickStar_x (sqrtf : ℚ → ℚ) (dtv : ℚ) (stars : List Star) (i : ℕ) :
    (tickStar sqrtf dtv stars i).x =
      (stars.getD i default).x + (tickStar sqrtf dtv stars i).vx * dtv / 2 := by
  simp [tickStar, innerFold_x]

theorem tickStar_y (sqrtf : ℚ → ℚ) (dtv : ℚ) (stars : List Star) (i : ℕ) :
    (tickStar sqrtf dtv stars i).y =
      (stars.getD i default).y + (tickStar sqrtf dtv stars i).vy * dtv / 2 := by
  simp [tickStar, innerFold_y]

theorem tickStar_mass (sqrtf : ℚ → ℚ) (dtv : ℚ) (stars : List Star) (i : ℕ) :
    (tickStar sqrtf dtv stars i).mass = (stars.getD i default).mass := by
  simp [tickStar, innerFold_mass]

theorem tickStar_opacity (sqrtf : ℚ → ℚ) (dtv : ℚ) (stars : List Star) (i : ℕ) :
    (tickStar sqrtf dtv stars i).opacity = (stars.getD i default).opacity := by
  simp [tickStar, innerFold_opacity]

/-- One tick leaves the mass and opacity columns of the store untouched. -/
theorem updateStars_map_massOpacity (sqrtf : ℚ → ℚ) (dtv : ℚ)
    (stars : List Star) :
    (updateStars sqrtf dtv stars).map (fun s => (s.mass, s.opacity)) =
      stars.map (fun s => (s.mass, s.opacity)) := by
  apply List.ext_getElem?
  intro n
  by_cases h : n < stars.length
  · have hs : stars[n]? = some stars[n] := List.getElem?_eq_getElem h
    simp [updateStars, List.getElem?_map, List.getElem?_range h, hs,
      tickStar_mass, tickStar_opacity, List.getD_eq_getElem _ _ h]
  · have h1 : stars.length ≤ n := le_of_not_lt h
    rw [List.getElem?_map, List.getElem?_map,
      List.getElem?_eq_none (by simpa [updateStars] using h1),
      List.getElem?_eq_none h1]

/-! ## C6 -/

/-- C6: for every particle store and every number of ticks `N`, the mass and
opacity fields of every particle are unchanged by the integrator: iterating
the tick `N` times leaves the mass and opacity columns of the store exactly
as they were. -/
theorem massOpacity_invariant_iterate (sqrtf : ℚ → ℚ) (dtv : ℚ) (N : ℕ)
    (stars : List Star) :
    ((updateStars sqrtf dtv)^[N] stars).map (fun s => (s.mass, s.opacity)) =
      stars.map (fun s => (s.mass, s.opacity)) := by
  induction N generalizing stars with
  | zero => rfl
  | succ N ih =>
    rw [Function.iterate_succ_apply, ih, updateStars_map_massOpacity]

/-! ## C9 -/

/-- C9: the escape velocity `sqrt(2 * G * mj / d)` (`calculateEscapeVelocity`,
consumed on line 40) is an intermediate value that no subsequent decision
reads: the tick computes exactly the same output state with the
escape-velocity computation removed. -/
theorem escapeVelocity_dead_code (sqrtf : ℚ → ℚ) (dtv : ℚ)
    (stars : List Star) :
    updateStarsNoEscape sqrtf dtv stars = updateStars sqrtf dtv stars := rfl

/-! ## C2 -/

/-- C2 (amended): the per-pair velocity update applied to particle `i` is
`(G * mj * mi / d2) / mi * (delta / sqrt d2) * dt` componentwise, where
`d2 = dx^2 + dy^2 + eps` is the softened squared distance and the normalizing
distance is `sqrt d2` — the square root of the same softened squared
distance, not the separately-epsilon'd `sqrt(d_raw^2) + eps`. -/
theorem pair_contribution_formula (sqrtf : ℚ → ℚ) (dtv : ℚ) (sj si : Star) :
    (pairStep sqrtf dtv sj si).vx =
      si.vx + GQ * sj.mass * si.mass /
          ((sj.x - si.x) * (sj.x - si.x) + (sj.y - si.y) * (sj.y - si.y) + softEps) /
          si.mass *
        ((sj.x - si.x) /
          sqrtf ((sj.x - si.x) * (sj.x - si.x) + (sj.y - si.y) * (sj.y - si.y) + softEps)) *
        dtv ∧
    (pairStep sqrtf dtv sj si).vy =
      si.vy + GQ * sj.mass * si.mass /
          ((sj.x - si.x) * (sj.x - si.x) + (sj.y - si.y) * (sj.y - si.y) + softEps) /
          si.mass *
        ((sj.y - si.y) /
          sqrtf ((sj.x - si.x) * (sj.x - si.x) + (sj.y - si.y) * (sj.y - si.y) + softEps)) *
        dtv := by
  constructor
  · rw [pairStep_vx]
    simp only [axPair]
    ring
  · rw [pairStep_vy]
    simp only [ayPair]
    ring

/-- A pair of concrete stars at distance `9999999/2000000` (chosen so that
both `d_raw^2` and `d_raw^2 + 1e-5` are squares of rationals, making the two
candidate normalizing distances exactly representable). -/
def siC2 : Star := ⟨0, 0, 1, 0, 0, 1, 1⟩

def sjC2 : Star := ⟨9999999 / 2000000, 0, 1, 0, 0, 1, 1⟩

/-- The values of the real square root at the two arguments the pair
`siC2`, `sjC2` feeds it: both arguments are perfect rational squares, so both
values are exact. -/
def sqrtC2 : ℚ → ℚ := fun q =>
  if q = 99999980000001 / 4000000000000 then 9999999 / 2000000
  else if q = 100000020000001 / 4000000000000 then 10000001 / 2000000
  else 0

/-- C2 counterexample: the claimed normalizing distance
`d' = sqrt(d_raw^2) + eps` (epsilon added after the square root, as the spec
words it — `specContribVx`) does not reproduce the code's per-pair velocity
update, which divides by `sqrt(d_raw^2 + eps)` instead. -/
theorem pair_contribution_not_spec_normalizer :
    (pairStep sqrtC2 dtQ sjC2 siC2).vx ≠ specContribVx sqrtC2 dtQ sjC2 siC2 := by
  norm_num [pairStep, specContribVx, sqrtC2, siC2, sjC2, GQ, dtQ, softEps,
    brightInc, maxForce, minBrightness]

/-! ## C3 -/

/-- C3: within a tick, particle `i`'s velocity is the tick-start velocity
plus the additive sum of all per-partner increments `a * dt` (computed from
the tick-start position and mass), and only after that sum is complete is the
position advanced by the half step `x += vx * dt / 2`, `y += vy * dt / 2`
(position scaled by `dt / 2` while every velocity increment used the full
`dt`). -/
theorem velocity_summed_then_halfstep_position (sqrtf : ℚ → ℚ) (dtv : ℚ)
    (stars : List Star) (i : ℕ) (hi : i < stars.length) :
    ((updateStars sqrtf dtv stars).getD i default).vx =
        (stars.getD i default).vx +
          (((List.range stars.length).filter (fun j => j ≠ i)).map
            (fun j => axPair sqrtf (stars.getD i default).x
              (stars.getD i default).y (stars.getD i default).mass
              (stars.getD j default))).sum * dtv ∧
      ((updateStars sqrtf dtv stars).getD i default).vy =
        (stars.getD i default).vy +
          (((List.range stars.length).filter (fun j => j ≠ i)).map
            (fun j => ayPair sqrtf (stars.getD i default).x
              (stars.getD i default).y (stars.getD i default).mass
              (stars.getD j default))).sum * dtv ∧
      ((updateStars sqrtf dtv stars).getD i default).x =
        (stars.getD i default).x +
          ((updateStars sqrtf dtv stars).getD i default).vx * dtv / 2 ∧
      ((updateStars sqrtf dtv stars).getD i default).y =
        (stars.getD i default).y +
          ((updateStars sqrtf dtv stars).getD i default).vy * dtv / 2 := by
  rw [updateStars_getD sqrtf dtv stars i hi]
  exact ⟨tickStar_vx sqrtf dtv stars i, tickStar_vy sqrtf dtv stars i,
    tickStar_x sqrtf dtv stars i, tickStar_y sqrtf dtv stars i⟩

/-- A small concrete store used to instantiate hypotheses of the
universally-quantified theorems. -/
def wStore : List Star := [⟨0, 0, 1, 0, 0, 1, 1⟩, ⟨1, 0, 1, 0, 0, 1, 1⟩]

theorem velocity_summed_then_halfstep_position_witness :
    0 < wStore.length ∧
      (((updateStars id dtQ wStore).getD 0 default).vx =
          (wStore.getD 0 default).vx +
            (((List.range wStore.length).filter (fun j => j ≠ 0)).map
              (fun j => axPair id (wStore.getD 0 default).x
                (wStore.getD 0 default).y (wStore.getD 0 default).mass
                (wStore.getD j default))).sum * dtQ ∧
        ((updateStars id dtQ wStore).getD 0 default).vy =
          (wStore.getD 0 default).vy +
            (((List.range wStore.length).filter (fun j => j ≠ 0)).map
              (fun j => ayPair id (wStore.getD 0 default).x
                (wStore.getD 0 default).y (wStore.getD 0 default).mass
                (wStore.getD j default))).sum * dtQ ∧
        ((updateStars id dtQ wStore).getD 0 default).x =
          (wStore.getD 0 default).x +
            ((updateStars id dtQ wStore).getD 0 default).vx * dtQ / 2 ∧
        ((updateStars id dtQ wStore).getD 0 default).y =
          (wStore.getD 0 default).y +
            ((updateStars id dtQ wStore).getD 0 default).vy * dtQ / 2) :=
  ⟨by decide, velocity_summed_then_halfstep_position id dtQ wStore 0 (by decide)⟩

/-! ## C4 -/

/-- C4: in any store with at least two particles, one tick leaves every
particle's brightness inside `[0.1, 1]`, whatever brightness it held before
the tick. -/
theorem brightness_clamped_after_tick (sqrtf : ℚ → ℚ) (dtv : ℚ)
    (stars : List Star) (i : ℕ) (h2 : 2 ≤ stars.length)
    (hi : i < stars.length) :
    minBrightness ≤ ((updateStars sqrtf dtv stars).getD i default).brightness ∧
      ((updateStars sqrtf dtv stars).getD i default).brightness ≤ 1 := by
  rw [updateStars_getD sqrtf dtv stars i hi]
  have hb : (tickStar sqrtf dtv stars i).brightness =
      (innerFold sqrtf dtv stars i (List.range stars.length)
        (stars.getD i default)).brightness := rfl
  rw [hb]
  apply innerFold_brightness_mem_of_partner
  by_cases h0 : i = 0
  · exact ⟨1, List.mem_range.mpr (by omega), by omega⟩
  · exact ⟨0, List.mem_range.mpr (by omega), by omega⟩

/-- A store whose brightness values start far outside `[0.1, 1]` on both
sides. -/
def bStore : List Star := [⟨0, 0, 1, 0, 0, 5, 1⟩, ⟨1, 0, 1, 0, 0, -3, 1⟩]

theorem brightness_clamped_after_tick_witness :
    2 ≤ bStore.length ∧ 0 < bStore.length ∧
      (minBrightness ≤ ((updateStars id dtQ bStore).getD 0 default).brightness ∧
        ((updateStars id dtQ bStore).getD 0 default).brightness ≤ 1) :=
  ⟨by decide, by decide,
    brightness_clamped_after_tick id dtQ bStore 0 (by decide) (by decide)⟩

/-! ## Write-order independence of the snapshot evaluation -/

theorem foldl_set_getElem? (f : ℕ → Star) (L : List ℕ) (st : List Star)
    (k : ℕ) :
    (L.foldl (fun out i => out.set i (f i)) st)[k]? =
      if k ∈ L ∧ k < st.length then some (f k) else st[k]? := by
  induction L generalizing st with
  | nil => simp
  | cons i t ih =>
    rw [List.foldl_cons, ih, List.length_set, List.getElem?_set]
    rcases Nat.lt_or_ge k st.length with hkl | hkl
    · by_cases hik : i = k
      · subst hik
        simp [hkl, List.mem_cons]
      · have hki : ¬ k = i := fun h => hik h.symm
        by_cases hkt : k ∈ t <;> simp [hik, hki, hkt, hkl, List.mem_cons]
    · have hnone : st[k]? = none := List.getElem?_eq_none hkl
      have hnlt : ¬ k < st.length := not_lt.mpr hkl
      by_cases hik : i = k
      · subst hik
        simp [hnlt, hnone]
      · simp [hik, hnlt, hnone]

/-- Under the snapshot contract the spec mandates (every unit reads only the
tick-start buffer and writes only its own slot), the order in which the
per-particle results are committed is irrelevant: any write order covering
every index yields exactly the snapshot tick `updateStars`.  This isolates
the defect shown below: the source kernel's order-dependence comes from the
live shared-buffer reads, not from the per-slot writes. -/
theorem tick_schedule_independent (sqrtf : ℚ → ℚ) (dtv : ℚ)
    (stars : List Star) (sched : List ℕ)
    (hp : sched.Perm (List.range stars.length)) :
    runSchedule sqrtf dtv stars sched = updateStars sqrtf dtv stars := by
  apply List.ext_getElem?
  intro k
  have hmem : k ∈ sched ↔ k < stars.length := by
    rw [hp.mem_iff, List.mem_range]
  rw [runSchedule, foldl_set_getElem?]
  by_cases hk : k < stars.length
  · rw [if_pos ⟨hmem.mpr hk, hk⟩]
    simp [updateStars, List.getElem?_map, List.getElem?_range hk]
  · rw [if_neg (fun h => hk h.2),
      List.getElem?_eq_none (le_of_not_lt hk),
      List.getElem?_eq_none (by simpa [updateStars] using le_of_not_lt hk)]

theorem tick_schedule_independent_witness :
    List.Perm [1, 0] (List.range wStore.length) ∧
      runSchedule id dtQ wStore [1, 0] = updateStars id dtQ wStore :=
  ⟨List.Perm.swap 0 1 [],
    tick_schedule_independent id dtQ wStore [1, 0] (List.Perm.swap 0 1 [])⟩

/-! ## C5 -/

/-- C5: a store of two particles of equal mass `m` at symmetric positions
`(-r, 0)` and `(r, 0)` with zero initial velocity: after one tick (with the
program's `dt`) the two velocities are equal and opposite, both are purely
horizontal, and each particle has accelerated toward the other (the left
particle's `vx` is positive). -/
theorem symmetric_pair_equal_opposite (sqrtf : ℚ → ℚ) (r m b o : ℚ)
    (hr : 0 < r) (hm : 0 < m) (hs : 0 < sqrtf (4 * r * r + softEps)) :
    ((updateStars sqrtf dtQ [⟨-r, 0, m, 0, 0, b, o⟩, ⟨r, 0, m, 0, 0, b, o⟩]).getD 0 default).vx =
        -(((updateStars sqrtf dtQ [⟨-r, 0, m, 0, 0, b, o⟩, ⟨r, 0, m, 0, 0, b, o⟩]).getD 1 default).vx) ∧
      ((updateStars sqrtf dtQ [⟨-r, 0, m, 0, 0, b, o⟩, ⟨r, 0, m, 0, 0, b, o⟩]).getD 0 default).vy = 0 ∧
      ((updateStars sqrtf dtQ [⟨-r, 0, m, 0, 0, b, o⟩, ⟨r, 0, m, 0, 0, b, o⟩]).getD 1 default).vy = 0 ∧
      0 < ((updateStars sqrtf dtQ [⟨-r, 0, m, 0, 0, b, o⟩, ⟨r, 0, m, 0, 0, b, o⟩]).getD 0 default).vx := by
  rw [updateStars_getD sqrtf dtQ _ 0 (by simp), updateStars_getD sqrtf dtQ _ 1 (by simp)]
  have hrange : List.range
      (([⟨-r, 0, m, 0, 0, b, o⟩, ⟨r, 0, m, 0, 0, b, o⟩] : List Star).length) = [0, 1] := rfl
  have hse : (0 : ℚ) < softEps := by norm_num [softEps]
  have hGQ : (0 : ℚ) < GQ := by norm_num [GQ]
  have hdt : (0 : ℚ) < dtQ := by norm_num [dtQ]
  simp only [tickStar, hrange, innerFold_cons, innerFold_nil]
  norm_num
  simp only [pairStep_vx, pairStep_vy, List.getD_cons_zero, List.getD_cons_succ]
  simp only [axPair, ayPair]
  have e1 : (r - -r) * (r - -r) + ((0 : ℚ) - 0) * ((0 : ℚ) - 0) + softEps
      = 4 * r * r + softEps := by ring
  have e2 : (-r - r) * (-r - r) + ((0 : ℚ) - 0) * ((0 : ℚ) - 0) + softEps
      = 4 * r * r + softEps := by ring
  have e3 : r - -r = 2 * r := by ring
  rw [e1, e2, e3]
  refine ⟨by ring, by simp, by simp, ?_⟩
  positivity

/-- A close rational approximation of the real square root at
`4 + 1e-5 = 400001/100000`, the only point where the symmetric-pair scenario
with `r = m = 1` consults the square root:
`(800001/400000)^2 = 400001/100000 + 1/160000000000`. -/
def sqrtW5 : ℚ → ℚ := fun q => if q = 400001 / 100000 then 800001 / 400000 else 0

theorem symmetric_pair_equal_opposite_witness :
    ((0 : ℚ) < 1 ∧ 0 < sqrtW5 (4 * 1 * 1 + softEps)) ∧
      (((updateStars sqrtW5 dtQ [⟨-1, 0, 1, 0, 0, 0, 0⟩, ⟨1, 0, 1, 0, 0, 0, 0⟩]).getD 0 default).vx =
          -(((updateStars sqrtW5 dtQ [⟨-1, 0, 1, 0, 0, 0, 0⟩, ⟨1, 0, 1, 0, 0, 0, 0⟩]).getD 1 default).vx) ∧
        ((updateStars sqrtW5 dtQ [⟨-1, 0, 1, 0, 0, 0, 0⟩, ⟨1, 0, 1, 0, 0, 0, 0⟩]).getD 0 default).vy = 0 ∧
        ((updateStars sqrtW5 dtQ [⟨-1, 0, 1, 0, 0, 0, 0⟩, ⟨1, 0, 1, 0, 0, 0, 0⟩]).getD 1 default).vy = 0 ∧
        0 < ((updateStars sqrtW5 dtQ [⟨-1, 0, 1, 0, 0, 0, 0⟩, ⟨1, 0, 1, 0, 0, 0, 0⟩]).getD 0 default).vx) :=
  ⟨⟨one_pos, by norm_num [sqrtW5, softEps]⟩,
    symmetric_pair_equal_opposite sqrtW5 1 1 0 0 one_pos one_pos
      (by norm_num [sqrtW5, softEps])⟩

/-! ## C8 -/

/-- C8: every non-central particle (slot `k + 1` of the initial store, built
from the `k`-th random draw) gets the circular-orbit velocity for its sampled
radius — its speed squared is `G * M_central / r` whenever the model square
root is exact at that argument and `sin^2 + cos^2 = 1` at the sampled angle —
directed perpendicular to its radius vector from the center `(450, 450)`;
the central particle at slot 0 sits at the coordinate-space center with zero
velocity and mass `CENTRAL_MASS`. -/
theorem initial_orbits_circular (sqrtf sinf cosf : ℚ → ℚ) (b0 o0 : ℚ)
    (draws : List Draw) (k : ℕ) (hk : k < draws.length)
    (htrig : sinf (draws.getD k default).angle * sinf (draws.getD k default).angle +
      cosf (draws.getD k default).angle * cosf (draws.getD k default).angle = 1)
    (hsq : circularVelocity sqrtf (draws.getD k default).radius *
        circularVelocity sqrtf (draws.getD k default).radius =
      GQ * centralMass / (draws.getD k default).radius) :
    (((initStore sqrtf sinf cosf b0 o0 draws).getD (k + 1) default).vx *
          ((initStore sqrtf sinf cosf b0 o0 draws).getD (k + 1) default).vx +
        ((initStore sqrtf sinf cosf b0 o0 draws).getD (k + 1) default).vy *
          ((initStore sqrtf sinf cosf b0 o0 draws).getD (k + 1) default).vy =
        GQ * centralMass / (draws.getD k default).radius) ∧
      (((initStore sqrtf sinf cosf b0 o0 draws).getD (k + 1) default).vx *
          (((initStore sqrtf sinf cosf b0 o0 draws).getD (k + 1) default).x - 450) +
        ((initStore sqrtf sinf cosf b0 o0 draws).getD (k + 1) default).vy *
          (((initStore sqrtf sinf cosf b0 o0 draws).getD (k + 1) default).y - 450) = 0) ∧
      ((initStore sqrtf sinf cosf b0 o0 draws).getD 0 default).x = 450 ∧
      ((initStore sqrtf sinf cosf b0 o0 draws).getD 0 default).y = 450 ∧
      ((initStore sqrtf sinf cosf b0 o0 draws).getD 0 default).vx = 0 ∧
      ((initStore sqrtf sinf cosf b0 o0 draws).getD 0 default).vy = 0 ∧
      ((initStore sqrtf sinf cosf b0 o0 draws).getD 0 default).mass = centralMass := by
  have hget : (initStore sqrtf sinf cosf b0 o0 draws).getD (k + 1) default =
      mkOrbiter sqrtf sinf cosf (draws.getD k default) := by
    have h1 : draws[k]? = some draws[k] := List.getElem?_eq_getElem hk
    simp [initStore, List.getD_cons_succ, List.getD_eq_getElem?_getD,
      List.getElem?_map, h1]
  rw [hget]
  refine ⟨?_, ?_, rfl, rfl, rfl, rfl, rfl⟩
  · simp only [mkOrbiter]
    linear_combination
      (circularVelocity sqrtf (draws.getD k default).radius *
        circularVelocity sqrtf (draws.getD k default).radius) * htrig + hsq
  · simp only [mkOrbiter]
    ring

/-- The value of the real square root at argument `1`, the only point where
the construction witness consults it (the sampled radius is chosen equal to
`G * CENTRAL_MASS`, so `G * M / r = 1` exactly). -/
def sqrtW8 : ℚ → ℚ := fun q => if q = 1 then 1 else 0

def sinW8 : ℚ → ℚ := fun _ => 3 / 5

def cosW8 : ℚ → ℚ := fun _ => 4 / 5

def drawsW8 : List Draw := [⟨GQ * centralMass, 0, 1, 1, 0⟩]

theorem initial_orbits_circular_witness :
    (0 < drawsW8.length ∧
        sinW8 (drawsW8.getD 0 default).angle * sinW8 (drawsW8.getD 0 default).angle +
          cosW8 (drawsW8.getD 0 default).angle * cosW8 (drawsW8.getD 0 default).angle = 1 ∧
        circularVelocity sqrtW8 (drawsW8.getD 0 default).radius *
            circularVelocity sqrtW8 (drawsW8.getD 0 default).radius =
          GQ * centralMass / (drawsW8.getD 0 default).radius) ∧
      ((((initStore sqrtW8 sinW8 cosW8 0 0 drawsW8).getD 1 default).vx *
            ((initStore sqrtW8 sinW8 cosW8 0 0 drawsW8).getD 1 default).vx +
          ((initStore sqrtW8 sinW8 cosW8 0 0 drawsW8).getD 1 default).vy *
            ((initStore sqrtW8 sinW8 cosW8 0 0 drawsW8).getD 1 default).vy =
          GQ * centralMass / (drawsW8.getD 0 default).radius) ∧
        (((initStore sqrtW8 sinW8 cosW8 0 0 drawsW8).getD 1 default).vx *
            (((initStore sqrtW8 sinW8 cosW8 0 0 drawsW8).getD 1 default).x - 450) +
          ((initStore sqrtW8 sinW8 cosW8 0 0 drawsW8).getD 1 default).vy *
            (((initStore sqrtW8 sinW8 cosW8 0 0 drawsW8).getD 1 default).y - 450) = 0) ∧
        ((initStore sqrtW8 sinW8 cosW8 0 0 drawsW8).getD 0 default).x = 450 ∧
        ((initStore sqrtW8 sinW8 cosW8 0 0 drawsW8).getD 0 default).y = 450 ∧
        ((initStore sqrtW8 sinW8 cosW8 0 0 drawsW8).getD 0 default).vx = 0 ∧
        ((initStore sqrtW8 sinW8 cosW8 0 0 drawsW8).getD 0 default).vy = 0 ∧
        ((initStore sqrtW8 sinW8 cosW8 0 0 drawsW8).getD 0 default).mass = centralMass) :=
  ⟨⟨by decide, by norm_num [sinW8, cosW8],
      by norm_num [drawsW8, circularVelocity, sqrtW8, GQ, centralMass]⟩,
    initial_orbits_circular sqrtW8 sinW8 cosW8 0 0 drawsW8 0 (by decide)
      (by norm_num [sinW8, cosW8])
      (by norm_num [drawsW8, circularVelocity, sqrtW8, GQ, centralMass])⟩

/-! ## C10 -/

/-- C10: construction never rejects or re-samples small radii: for every
threshold `eps > 0` there is a radius below it that the generator accepts
as-is, for which the circular-velocity formula divides `G * CENTRAL_MASS` by
the near-zero radius and exceeds any bound `B` (for any monotone model square
root that dominates the identity on squares of values at least 1), and that
velocity propagates unguarded into the stored particle's `vx` and `vy`. -/
theorem no_minimum_radius_guard (sqrtf sinf cosf : ℚ → ℚ)
    (hmono : Monotone sqrtf) (hanchor : ∀ q : ℚ, 1 ≤ q → q ≤ sqrtf (q * q))
    (B eps angle op massD b0 : ℚ) (hB : 1 ≤ B) (heps : 0 < eps) :
    ∃ radius : ℚ, 0 < radius ∧ radius < eps ∧
      B ≤ circularVelocity sqrtf radius ∧
      (mkOrbiter sqrtf sinf cosf ⟨radius, angle, op, massD, b0⟩).vx =
        -(circularVelocity sqrtf radius) * sinf angle ∧
      (mkOrbiter sqrtf sinf cosf ⟨radius, angle, op, massD, b0⟩).vy =
        circularVelocity sqrtf radius * cosf angle := by
  have hB0 : (0 : ℚ) < B := lt_of_lt_of_le one_pos hB
  have hK : (0 : ℚ) < GQ * centralMass := by norm_num [GQ, centralMass]
  refine ⟨min (eps / 2) (GQ * centralMass / (B * B)), ?_, ?_, ?_, rfl, rfl⟩
  · exact lt_min (by linarith) (div_pos hK (mul_pos hB0 hB0))
  · exact lt_of_le_of_lt (min_le_left _ _) (by linarith)
  · have hr0 : 0 < min (eps / 2) (GQ * centralMass / (B * B)) :=
      lt_min (by linarith) (div_pos hK (mul_pos hB0 hB0))
    have h1 : min (eps / 2) (GQ * centralMass / (B * B)) * (B * B) ≤
        GQ * centralMass :=
      (le_div_iff₀ (mul_pos hB0 hB0)).mp (min_le_right _ _)
    have h2 : B * B ≤
        GQ * centralMass / min (eps / 2) (GQ * centralMass / (B * B)) := by
      rw [le_div_iff₀ hr0]
      nlinarith [h1]
    calc B ≤ sqrtf (B * B) := hanchor B hB
      _ ≤ _ := hmono h2

theorem no_minimum_radius_guard_witness :
    (Monotone (id : ℚ → ℚ) ∧ (1 : ℚ) ≤ 1 ∧ (0 : ℚ) < 1) ∧
      (∃ radius : ℚ, 0 < radius ∧ radius < 1 ∧
        1 ≤ circularVelocity id radius ∧
        (mkOrbiter id (fun _ => 3 / 5) (fun _ => 4 / 5) ⟨radius, 0, 0, 0, 0⟩).vx =
          -(circularVelocity id radius) * (fun _ : ℚ => (3 : ℚ) / 5) 0 ∧
        (mkOrbiter id (fun _ => 3 / 5) (fun _ => 4 / 5) ⟨radius, 0, 0, 0, 0⟩).vy =
          circularVelocity id radius * (fun _ : ℚ => (4 : ℚ) / 5) 0) :=
  ⟨⟨monotone_id, le_rfl, one_pos⟩,
    no_minimum_radius_guard id (fun _ => 3 / 5) (fun _ => 4 / 5) monotone_id
      (fun q hq => by simp only [id_eq]; nlinarith) 1 1 0 0 0 0 le_rfl one_pos⟩

/-! ## C1 -/

/-- Two heavy stars at distance `9999999/2000000 ≈ 5`; the first one moves
appreciably within one tick, so any later-processed unit that re-reads its
slot sees a position far from the tick-start snapshot. -/
def raceStore : List Star :=
  [⟨0, 0, 10 ^ 12, 0, 0, 1, 1⟩, ⟨9999999 / 2000000, 0, 10 ^ 12, 0, 0, 1, 1⟩]

/-- The values of the real square root at the four arguments the `raceStore`
scenario feeds it.  The first three arguments are perfect rational squares,
so those values are exact; the fourth (the softened squared distance seen by
the in-place pass after particle 0 has moved) is irrational, and the value
given is a rational approximation accurate to better than `1e-38`. -/
def sqrtC1 : ℚ → ℚ := fun q =>
  if q = 99999980000001 / 4000000000000 then 9999999 / 2000000
  else if q = 100000020000001 / 4000000000000 then 10000001 / 2000000
  else if q = 94934825511260878452732981394833683078290072960040000001 /
      4000002400000600000080000006000000240000004000000000000 then
    9743450390455163519979999999 / 2000000600000060000002000000
  else if q = 94934865511284878458732982194833743078292472960080000001 /
      4000002400000600000080000006000000240000004000000000000 then
    761206993756403651631545896734203258941 /
      156250000000000000000000000000000000000
  else 0

/-- C1: the tick does not tolerate in-place evaluation.  Under the
sequential index-order schedule — one legal schedule of the source kernel,
which runs all units against a single shared buffer with no intra-tick
synchronization — particle 1 reads particle 0's already-advanced position,
and its resulting velocity differs from the snapshot (double-buffered)
evaluation that the spec requires. -/
theorem inplace_tick_diverges_from_snapshot :
    ((updateStarsInPlace sqrtC1 dtQ raceStore).getD 1 default).vx ≠
      ((updateStars sqrtC1 dtQ raceStore).getD 1 default).vx := by
  simp only [updateStarsInPlace, updateStars, tickStar, innerFold, pairStep,
    calculateEscapeVelocity, raceStore, List.length_cons, List.length_nil,
    List.range_succ, List.range_zero, List.nil_append, List.cons_append,
    List.foldl_cons, List.foldl_nil, List.map_cons, List.map_nil,
    List.getD_cons_zero, List.getD_cons_succ, List.set_cons_zero,
    List.set_cons_succ]
  norm_num [sqrtC1, GQ, dtQ, softEps, brightInc, maxForce, minBrightness,
    min_def, max_def]

/-! ## C7 -/

/-- C7: the program's tick is not independent of the order in which the
per-particle work units execute.  Each unit reads the live shared buffer, so
the two legal schedules `[0, 1]` and `[1, 0]` of the unsynchronized kernel
disagree on `raceStore`: particle 0's post-tick velocity depends on whether
its unit ran before or after particle 1's.  The claimed guarantee — identical
output state regardless of unit execution order — fails on the code (it
holds only for the snapshot reads the spec mandates). -/
theorem inplace_schedule_order_changes_output :
    ((runInPlaceSchedule sqrtC1 dtQ raceStore [0, 1]).getD 0 default).vx ≠
      ((runInPlaceSchedule sqrtC1 dtQ raceStore [1, 0]).getD 0 default).vx := by
  simp only [runInPlaceSchedule, tickStar, innerFold, pairStep,
    calculateEscapeVelocity, raceStore, List.length_cons, List.length_nil,
    List.range_succ, List.range_zero, List.nil_append, List.cons_append,
    List.foldl_cons, List.foldl_nil,
    List.getD_cons_zero, List.getD_cons_succ, List.set_cons_zero,
    List.set_cons_succ]
  norm_num [sqrtC1, GQ, dtQ, softEps, brightInc, maxForce, minBrightness,
    min_def, max_def]

end Gravity
